import Mathlib

/-!
# Real-time chat relay of `src/app.js`

A shallow embedding of the socket handlers registered in `io.on("connection", ...)`
(`src/app.js`, lines 79-178): `join`, `leave`, `disconnecting` and `chat`.

Modelling decisions.

* The socket.io adapter keeps two indexes of one relation (`rooms : Map<Room, Set<SocketId>>`
  and `sids : Map<SocketId, Set<Room>>`).  The relation is a list of `(room, socket id)`
  pairs in insertion order without repetition of a pair by `socketJoin`; `socketRooms` and
  `membersOf` are its two projections.
* Socket identifiers are strings.  A room key is the JavaScript value handed to
  `socket.join`, `socket.leave` or `io.in`: the adapter's maps accept any value as a key,
  the handlers pass on what the client sent, and a `join` event sent without a room id
  creates the room keyed `undefined`.  Room keys are the primitive values of `JsVal`.
* `socket.chatId` is an expando property of each socket object: `World.chatId`, whose
  value is `undefined` until a `join` assigns it.
* `MessageDAO` (`src/dao/messageDAO.mjs`) is not part of the sources at hand; the handler
  is parameterised by it.  An awaited call either rejects (`Outcome.throws`) or resolves
  to a value (`Outcome.returns`).  The two awaits of the `chat` handler are taken at one
  registry state: no other event is interleaved between them.
* `console.log` diagnostics are dropped; `console.error` lines are kept in `Effects.errors`.
-/

namespace ChatRelay

abbrev SocketId := String

/-- Primitive JavaScript values carried by event data and by DAO responses. -/
inductive JsVal where
  | undefined
  | null
  | bool (b : Bool)
  | num (n : Int)
  | str (s : String)
  deriving DecidableEq, Repr

/-- Keys of the adapter's room map: any primitive value, `undefined` included.  Two keys
are the same key exactly when they are the same value. -/
abbrev Room := JsVal

/-- JavaScript truthiness, as tested by `!addResponse.success`. -/
def truthy : JsVal → Bool
  | .undefined => false
  | .null => false
  | .bool b => b
  | .num n => n != 0
  | .str s => s != ""

/-- Registry and sessions: the adapter's membership relation and the value of every
socket's `chatId` property (`undefined` while it was never assigned). -/
structure World where
  members : List (Room × SocketId)
  chatId : SocketId → Room

/-- The value of `socket.rooms`: the rooms the socket `id` is in. -/
def socketRooms (w : World) (id : SocketId) : List Room :=
  (w.members.filter (fun p => p.2 = id)).map Prod.fst

/-- The value of `io.sockets.adapter.rooms.get(room)`, empty for an unknown room. -/
def membersOf (w : World) (room : Room) : List SocketId :=
  (w.members.filter (fun p => p.1 = room)).map Prod.snd

/-- The call `socket.join(room)`: adds the socket to the room's set (a set: no repetition). -/
def socketJoin (w : World) (id : SocketId) (room : Room) : World :=
  if (room, id) ∈ w.members then w
  else { w with members := w.members ++ [(room, id)] }

/-- The call `socket.leave(room)`: removes the socket from the room's set if present. -/
def socketLeave (w : World) (id : SocketId) (room : Room) : World :=
  { w with members := w.members.filter (fun p => p ≠ (room, id)) }

/-- A new connection, as socket.io sets it up before the `connection` callback runs:
the socket is placed in the room named by its own id and has no `chatId` property yet. -/
def ioConnect (w : World) (id : SocketId) : World :=
  socketJoin { w with chatId := fun s => if s = id then .undefined else w.chatId s }
    id (.str id)

/-- The registry with no connection at all. -/
def emptyWorld : World :=
  { members := [], chatId := fun _ => .undefined }

/-- The `data` object of a `chat` event. -/
structure ChatData where
  chatId : JsVal
  sender : JsVal
  timestamp : JsVal
  content : JsVal
  deriving DecidableEq, Repr

/-- The argument object of `MessageDAO.addMessage`. -/
structure NewMessage where
  chatId : JsVal
  type : JsVal
  sender : JsVal
  timestamp : JsVal
  content : JsVal
  deriving DecidableEq, Repr

/-- The fields of the object `MessageDAO.addMessage` resolves to that the handler reads. -/
structure AddResponse where
  success : JsVal
  id : JsVal
  error : JsVal
  deriving DecidableEq, Repr

/-- A stored message document. -/
structure Message where
  id : JsVal
  chatId : JsVal
  type : JsVal
  sender : JsVal
  timestamp : JsVal
  content : JsVal
  deriving DecidableEq, Repr

/-- A settled promise: rejected with an error, or resolved to a value. -/
inductive Outcome (α : Type) where
  | throws (err : String)
  | returns (a : α)
  deriving DecidableEq, Repr

/-- The two `MessageDAO` operations the relay consumes.  `addMessage` may resolve to
`undefined`/`null` (`none`); `getMessage` resolves to `null` (`none`) when the lookup
finds no document. -/
structure MessageDAO where
  addMessage : NewMessage → Outcome (Option AddResponse)
  getMessage : JsVal → Outcome (Option Message)

/-- An acknowledgement `callback({ status })` delivered to the requesting socket only. -/
structure Ack where
  socket : SocketId
  status : String
  deriving DecidableEq, Repr

/-- One `io.in(target).emit(event, payload)` operation. -/
structure Emit where
  target : Room
  event : String
  payload : Option Message
  deriving DecidableEq, Repr

/-- A call made to the message store. -/
inductive DaoCall where
  | addMessage (m : NewMessage)
  | getMessage (id : JsVal)
  deriving DecidableEq, Repr

/-- Observable effects of one handler run, each list in program order. -/
structure Effects where
  acks : List Ack := []
  emits : List Emit := []
  errors : List String := []
  calls : List DaoCall := []
  deriving DecidableEq, Repr

/-- How a block of statements ends. -/
inductive Completion where
  | normal
  | thrown (err : String)
  deriving DecidableEq, Repr

/-- State, effects and completion after running a block. -/
structure Result where
  world : World
  fx : Effects
  completion : Completion

/-- The statement `try body catch (err) console.error(msg err)`: a throw of the body is
logged and the statement completes normally, keeping the state the body reached. -/
def tryCatch (body : Result) (msg : String → String) : Result :=
  match body.completion with
  | .normal => body
  | .thrown err =>
    { world := body.world
      fx := { body.fx with errors := body.fx.errors ++ [msg err] }
      completion := .normal }

/-- The `try` block of the `join` handler (lines 85-102).  `callback` tells whether the
client supplied an acknowledgement function; calling a missing one is a `TypeError`. -/
def joinBody (w : World) (sock : SocketId) (chatId : Room) (callback : Bool) : Result :=
  let w1 := socketJoin w sock chatId
  let w2 : World := { w1 with chatId := fun s => if s = sock then chatId else w1.chatId s }
  if callback then
    { world := w2, fx := { acks := [{ socket := sock, status := "ok" }] }, completion := .normal }
  else
    { world := w2, fx := {}, completion := .thrown "TypeError: callback is not a function" }

/-- The handler `socket.on("join", (chatId, callback) => ...)` (lines 82-106). -/
def onJoin (w : World) (sock : SocketId) (chatId : Room) (callback : Bool) : Result :=
  tryCatch (joinBody w sock chatId callback) (fun err => "Failed to join chat. " ++ err)

/-- The `try` block of the `leave` handler (lines 111-117). -/
def leaveBody (w : World) (sock : SocketId) (chatId : Room) (callback : Bool) : Result :=
  let w1 := socketLeave w sock chatId
  if callback then
    { world := w1, fx := { acks := [{ socket := sock, status := "ok" }] }, completion := .normal }
  else
    { world := w1, fx := {}, completion := .thrown "TypeError: callback is not a function" }

/-- The handler `socket.on("leave", (chatId, callback) => ...)` (lines 108-121). -/
def onLeave (w : World) (sock : SocketId) (chatId : Room) (callback : Bool) : Result :=
  tryCatch (leaveBody w sock chatId callback) (fun err => "Failed to leave chat. " ++ err)

/-- One iteration of `for (const room of socket.rooms)` in the `disconnecting` handler:
`if (room === socket.chatId) socket.leave(socket.chatId)`. -/
def disconnectStep (sock : SocketId) (w : World) (room : Room) : World :=
  if room = w.chatId sock then socketLeave w sock (w.chatId sock) else w

/-- The handler `socket.on("disconnecting", (reason) => ...)` (lines 127-150). -/
def onDisconnecting (w : World) (sock : SocketId) : Result :=
  tryCatch
    { world := (socketRooms w sock).foldl (disconnectStep sock) w, fx := {}, completion := .normal }
    (fun _ => "Failed to leave room while disconnecting.")

/-- The object literal passed to `MessageDAO.addMessage` (lines 155-161). -/
def newMessage (d : ChatData) : NewMessage :=
  { chatId := d.chatId, type := .str "user", sender := d.sender,
    timestamp := d.timestamp, content := d.content }

/-- Text of a JavaScript value inside a template literal. -/
def JsVal.render : JsVal → String
  | .undefined => "undefined"
  | .null => "null"
  | .bool b => if b then "true" else "false"
  | .num n => toString n
  | .str s => s

/-- The `try` block of the `chat` handler (lines 155-173).  `data = none` is an event sent
without a data object (`undefined` or `null`), on which `data.chatId` is a `TypeError`; a
field the object lacks reads as `undefined`. -/
def chatBody (dao : MessageDAO) (w : World) (sock : SocketId) (data : Option ChatData) :
    Result :=
  match data with
  | none =>
    { world := w, fx := {}, completion := .thrown "TypeError: cannot read properties of undefined" }
  | some d =>
    let args := newMessage d
    match dao.addMessage args with
    | .throws err =>
      { world := w, fx := { calls := [.addMessage args] }, completion := .thrown err }
    | .returns none =>
      { world := w, fx := { calls := [.addMessage args] },
        completion := .thrown "TypeError: cannot read properties of undefined" }
    | .returns (some addResponse) =>
      if truthy addResponse.success = false then
        { world := w, fx := { calls := [.addMessage args] },
          completion := .thrown ("Error: Failed to add message to DB. " ++ addResponse.error.render) }
      else
        match dao.getMessage addResponse.id with
        | .throws err =>
          { world := w, fx := { calls := [.addMessage args, .getMessage addResponse.id] },
            completion := .thrown err }
        | .returns message =>
          { world := w
            fx := { calls := [.addMessage args, .getMessage addResponse.id]
                    emits := [{ target := w.chatId sock, event := "chat", payload := message }] }
            completion := .normal }

/-- The handler `socket.on("chat", async (data) => ...)` (lines 152-177). -/
def onChat (dao : MessageDAO) (w : World) (sock : SocketId) (data : Option ChatData) : Result :=
  tryCatch (chatBody dao w sock data)
    (fun _ => "Failed to store message and resend it back to chat room.")

/-- The sockets reached by `io.in(target)`: the members of the adapter room keyed by the
target value, whatever that value is.  For `undefined` this is the room keyed `undefined`,
which holds the sockets that joined without a room id. -/
def ioIn (w : World) (target : Room) : List SocketId :=
  membersOf w target

/-- The sockets that receive a packet from the emits of one handler run, one entry per
delivery. -/
def delivered (r : Result) : List SocketId :=
  r.fx.emits.flatMap (fun e => ioIn r.world e.target)

/-! ## Specification-side definitions and concrete fixtures -/

/-- Whether the persist step of a send failed: the call rejected, resolved to no object,
or resolved to an object whose `success` field is falsy. -/
def persistFailed : Outcome (Option AddResponse) → Bool
  | .throws _ => true
  | .returns none => true
  | .returns (some r) => !truthy r.success

/-- A `chat` event addressed to room `r1`. -/
def sampleData : ChatData :=
  { chatId := .str "r1", sender := .str "A", timestamp := .num 1700000000, content := .str "hi" }

/-- The stored form of `sampleData`. -/
def storedHi : Message :=
  { id := .str "m1", chatId := .str "r1", type := .str "user", sender := .str "A",
    timestamp := .num 1700000000, content := .str "hi" }

/-- A store in which both calls succeed. -/
def storeOk : MessageDAO :=
  { addMessage := fun _ =>
      .returns (some { success := .bool true, id := .str "m1", error := .undefined })
    getMessage := fun _ => .returns (some storedHi) }

/-- A store whose append reports failure by value, with no `success` field. -/
def storeDown : MessageDAO :=
  { addMessage := fun _ =>
      .returns (some { success := .undefined, id := .undefined, error := .str "E11000" })
    getMessage := fun _ => .returns (some storedHi) }

/-- A store whose append succeeds and whose lookup then finds no document. -/
def storeNoRecord : MessageDAO :=
  { addMessage := fun _ =>
      .returns (some { success := .bool true, id := .str "m1", error := .undefined })
    getMessage := fun _ => .returns none }

/-- Two connections: `a` joined `r2`, `b` joined `r1`. -/
def twoRooms : World :=
  (onJoin (onJoin (ioConnect (ioConnect emptyWorld "a") "b") "a" (.str "r2") true).world
    "b" (.str "r1") true).world

/-- Two connections `a` and `b`, both joined to `r1`. -/
def oneRoom : World :=
  (onJoin (onJoin (ioConnect (ioConnect emptyWorld "a") "b") "a" (.str "r1") true).world
    "b" (.str "r1") true).world

/-- A `join` or `leave` event received on one connection. -/
inductive RoomEvent where
  | join (chatId : Room) (callback : Bool)
  | leave (chatId : Room) (callback : Bool)
  deriving DecidableEq, Repr

/-- The registry after the handler of one `join`/`leave` event of socket `sock` ran. -/
def handleEvent (sock : SocketId) (w : World) : RoomEvent → World
  | .join chatId callback => (onJoin w sock chatId callback).world
  | .leave chatId callback => (onLeave w sock chatId callback).world

/-- The registry after a sequence of `join`/`leave` events of socket `sock`, in order. -/
def runEvents (sock : SocketId) (w : World) (evs : List RoomEvent) : World :=
  evs.foldl (handleEvent sock) w

/-- The room of the most recent `join` of a sequence, `init` when it has none. -/
def lastJoined (init : Room) (evs : List RoomEvent) : Room :=
  evs.foldl (fun s e => match e with
    | .join chatId _ => chatId
    | .leave _ _ => s) init

/-- Whether the most recent event of a sequence naming `room` is a `join`; `init` when no
event names it. -/
def joinedLast (room : Room) (init : Bool) (evs : List RoomEvent) : Bool :=
  evs.foldl (fun b e => match e with
    | .join chatId _ => if chatId = room then true else b
    | .leave chatId _ => if chatId = room then false else b) init

/-- A fresh connection `a` after `join r1` and `leave r1`. -/
def joinedThenLeft : World :=
  runEvents "a" (ioConnect emptyWorld "a") [.join (.str "r1") true, .leave (.str "r1") true]

/-- A fresh connection `a` after `join r1` and `join r2`. -/
def joinedTwice : World :=
  (onJoin (onJoin (ioConnect emptyWorld "a") "a" (.str "r1") true).world
    "a" (.str "r2") true).world

/-- Three new connections `A`, `B`, `C` on an empty registry, each then joining `R`. -/
def threeJoined (R : Room) (A B C : SocketId) : World :=
  (onJoin (onJoin (onJoin (ioConnect (ioConnect (ioConnect emptyWorld A) B) C)
    A R true).world B R true).world C R true).world

/-- Three connections `a`, `b`, `c`, each joined to `r1` and to nothing else. -/
def threeInRoom : World :=
  threeJoined (.str "r1") "a" "b" "c"

/-! ## Lemmas and theorems -/

theorem tryCatch_world (body : Result) (msg : String → String) :
    (tryCatch body msg).world = body.world := by
  unfold tryCatch; cases body.completion <;> rfl

theorem tryCatch_completion (body : Result) (msg : String → String) :
    (tryCatch body msg).completion = .normal := by
  unfold tryCatch
  cases h : body.completion <;> simp [h]

theorem tryCatch_emits (body : Result) (msg : String → String) :
    (tryCatch body msg).fx.emits = body.fx.emits := by
  unfold tryCatch; cases body.completion <;> rfl

theorem tryCatch_calls (body : Result) (msg : String → String) :
    (tryCatch body msg).fx.calls = body.fx.calls := by
  unfold tryCatch; cases body.completion <;> rfl

theorem tryCatch_acks (body : Result) (msg : String → String) :
    (tryCatch body msg).fx.acks = body.fx.acks := by
  unfold tryCatch; cases body.completion <;> rfl

theorem chatBody_world (dao : MessageDAO) (w : World) (sock : SocketId)
    (data : Option ChatData) : (chatBody dao w sock data).world = w := by
  unfold chatBody
  cases data with
  | none => rfl
  | some d =>
    simp only
    cases dao.addMessage (newMessage d) with
    | throws err => rfl
    | returns a =>
      cases a with
      | none => rfl
      | some resp =>
        simp only
        split
        · rfl
        · cases dao.getMessage resp.id <;> rfl

theorem onChat_world (dao : MessageDAO) (w : World) (sock : SocketId)
    (data : Option ChatData) : (onChat dao w sock data).world = w := by
  unfold onChat; rw [tryCatch_world, chatBody_world]

/-- What a send does when both store calls succeed. -/
theorem chatBody_success (dao : MessageDAO) (w : World) (sock : SocketId) (d : ChatData)
    (resp : AddResponse) (m : Option Message)
    (hadd : dao.addMessage (newMessage d) = .returns (some resp))
    (hs : truthy resp.success = true) (hget : dao.getMessage resp.id = .returns m) :
    chatBody dao w sock (some d) =
      { world := w
        fx := { calls := [.addMessage (newMessage d), .getMessage resp.id]
                emits := [{ target := w.chatId sock, event := "chat", payload := m }] }
        completion := .normal } := by
  simp [chatBody, hadd, hs, hget]

theorem onChat_success_emits (dao : MessageDAO) (w : World) (sock : SocketId) (d : ChatData)
    (resp : AddResponse) (m : Option Message)
    (hadd : dao.addMessage (newMessage d) = .returns (some resp))
    (hs : truthy resp.success = true) (hget : dao.getMessage resp.id = .returns m) :
    (onChat dao w sock (some d)).fx.emits =
      [{ target := w.chatId sock, event := "chat", payload := m }] := by
  unfold onChat
  rw [tryCatch_emits, chatBody_success dao w sock d resp m hadd hs hget]

theorem delivered_onChat_success (dao : MessageDAO) (w : World) (sock : SocketId)
    (d : ChatData) (resp : AddResponse) (m : Option Message)
    (hadd : dao.addMessage (newMessage d) = .returns (some resp))
    (hs : truthy resp.success = true) (hget : dao.getMessage resp.id = .returns m) :
    delivered (onChat dao w sock (some d)) = membersOf w (w.chatId sock) := by
  unfold delivered
  rw [onChat_success_emits dao w sock d resp m hadd hs hget, onChat_world]
  simp [List.flatMap, ioIn]

/-- Every emit of a send comes after both store calls succeeded, and is the single emit
of that run. -/
theorem chatBody_emit_inv (dao : MessageDAO) (w : World) (sock : SocketId)
    (data : Option ChatData) (e : Emit) (he : e ∈ (chatBody dao w sock data).fx.emits) :
    ∃ d resp, data = some d ∧ dao.addMessage (newMessage d) = .returns (some resp) ∧
      truthy resp.success = true ∧ dao.getMessage resp.id = .returns e.payload ∧
      e = { target := w.chatId sock, event := "chat", payload := e.payload } ∧
      (chatBody dao w sock data).fx.calls =
        [.addMessage (newMessage d), .getMessage resp.id] := by
  cases data with
  | none => simp [chatBody] at he
  | some d =>
    cases hadd : dao.addMessage (newMessage d) with
    | throws err => simp [chatBody, hadd] at he
    | returns a =>
      cases a with
      | none => simp [chatBody, hadd] at he
      | some resp =>
        by_cases hs : truthy resp.success = true
        · cases hget : dao.getMessage resp.id with
          | throws err => simp [chatBody, hadd, hs, hget] at he
          | returns m =>
            rw [chatBody_success dao w sock d resp m hadd hs hget] at he ⊢
            simp at he
            subst he
            exact ⟨d, resp, rfl, hadd, hs, hget, rfl, rfl⟩
        · simp [chatBody, hadd, hs] at he

theorem mem_membersOf (w : World) (room : Room) (s : SocketId) :
    s ∈ membersOf w room ↔ (room, s) ∈ w.members := by
  unfold membersOf
  simp only [List.mem_map, List.mem_filter, decide_eq_true_eq]
  constructor
  · rintro ⟨⟨r, t⟩, ⟨hp, hr⟩, rfl⟩
    simp only at hr
    subst hr
    exact hp
  · intro h
    exact ⟨(room, s), ⟨h, rfl⟩, rfl⟩

theorem mem_socketRooms (w : World) (id : SocketId) (room : Room) :
    room ∈ socketRooms w id ↔ (room, id) ∈ w.members := by
  unfold socketRooms
  simp only [List.mem_map, List.mem_filter, decide_eq_true_eq]
  constructor
  · rintro ⟨⟨r, t⟩, ⟨hp, hr⟩, rfl⟩
    simp only at hr
    subst hr
    exact hp
  · intro h
    exact ⟨(room, id), ⟨h, rfl⟩, rfl⟩

theorem mem_socketJoin (w : World) (id : SocketId) (room : Room) (p : Room × SocketId) :
    p ∈ (socketJoin w id room).members ↔ p ∈ w.members ∨ p = (room, id) := by
  unfold socketJoin
  split
  · constructor
    · exact Or.inl
    · rintro (h | rfl)
      · exact h
      · assumption
  · simp

theorem socketJoin_chatId (w : World) (id : SocketId) (room : Room) :
    (socketJoin w id room).chatId = w.chatId := by
  unfold socketJoin
  split <;> rfl

theorem mem_socketLeave (w : World) (id : SocketId) (room : Room) (p : Room × SocketId) :
    p ∈ (socketLeave w id room).members ↔ p ∈ w.members ∧ p ≠ (room, id) := by
  simp [socketLeave]

theorem socketLeave_chatId (w : World) (id : SocketId) (room : Room) :
    (socketLeave w id room).chatId = w.chatId := rfl

theorem onJoin_world (w : World) (sock : SocketId) (chatId : Room) (callback : Bool) :
    (onJoin w sock chatId callback).world =
      { members := (socketJoin w sock chatId).members
        chatId := fun s => if s = sock then chatId else w.chatId s } := by
  unfold onJoin
  rw [tryCatch_world]
  unfold joinBody
  cases callback <;> simp [socketJoin_chatId]

theorem onLeave_world (w : World) (sock : SocketId) (chatId : Room) (callback : Bool) :
    (onLeave w sock chatId callback).world = socketLeave w sock chatId := by
  unfold onLeave
  rw [tryCatch_world]
  unfold leaveBody
  cases callback <;> rfl

theorem disconnectStep_chatId (sock : SocketId) (w : World) (room : Room) :
    (disconnectStep sock w room).chatId = w.chatId := by
  unfold disconnectStep
  split <;> rfl

theorem mem_disconnectStep (sock : SocketId) (w : World) (room : Room)
    (p : Room × SocketId) :
    p ∈ (disconnectStep sock w room).members ↔
      p ∈ w.members ∧ (room = w.chatId sock → p ≠ (w.chatId sock, sock)) := by
  unfold disconnectStep
  split
  · rename_i h
    rw [mem_socketLeave]
    exact ⟨fun hp => ⟨hp.1, fun _ => hp.2⟩, fun hp => ⟨hp.1, hp.2 h⟩⟩
  · rename_i h
    exact ⟨fun hp => ⟨hp, fun h2 => absurd h2 h⟩, fun hp => hp.1⟩

theorem foldl_disconnectStep_chatId (sock : SocketId) (rooms : List Room) (w : World) :
    (rooms.foldl (disconnectStep sock) w).chatId = w.chatId := by
  induction rooms generalizing w with
  | nil => rfl
  | cons r rs ih => rw [List.foldl_cons, ih, disconnectStep_chatId]

theorem mem_foldl_disconnectStep (sock : SocketId) (rooms : List Room) (w : World)
    (p : Room × SocketId) :
    p ∈ (rooms.foldl (disconnectStep sock) w).members ↔
      p ∈ w.members ∧ (w.chatId sock ∈ rooms → p ≠ (w.chatId sock, sock)) := by
  induction rooms generalizing w with
  | nil => simp
  | cons r rs ih =>
    rw [List.foldl_cons, ih, disconnectStep_chatId, mem_disconnectStep, List.mem_cons]
    constructor
    · rintro ⟨⟨hp, h1⟩, h2⟩
      refine ⟨hp, ?_⟩
      rintro (h3 | h3)
      · exact h1 h3.symm
      · exact h2 h3
    · rintro ⟨hp, h⟩
      exact ⟨⟨hp, fun h3 => h (Or.inl h3.symm)⟩, fun h3 => h (Or.inr h3)⟩

theorem onDisconnecting_chatId (w : World) (sock : SocketId) :
    (onDisconnecting w sock).world.chatId = w.chatId := by
  unfold onDisconnecting
  rw [tryCatch_world]
  exact foldl_disconnectStep_chatId sock _ w

theorem mem_onDisconnecting (w : World) (sock : SocketId) (p : Room × SocketId) :
    p ∈ (onDisconnecting w sock).world.members ↔
      p ∈ w.members ∧ p ≠ (w.chatId sock, sock) := by
  unfold onDisconnecting
  rw [tryCatch_world]
  simp only
  rw [mem_foldl_disconnectStep]
  constructor
  · rintro ⟨hp, h⟩
    refine ⟨hp, fun heq => ?_⟩
    have hin : w.chatId sock ∈ socketRooms w sock :=
      (mem_socketRooms w sock (w.chatId sock)).2 (heq ▸ hp)
    exact h hin heq
  · rintro ⟨hp, h⟩
    exact ⟨hp, fun _ => h⟩

/-- C1 (durability before delivery): when `MessageDAO.addMessage` rejects, resolves to no
object, or resolves to a response whose `success` field is falsy, the `chat` handler emits
nothing and nobody receives anything. -/
theorem durability_before_delivery (dao : MessageDAO) (w : World) (sock : SocketId)
    (d : ChatData) (h : persistFailed (dao.addMessage (newMessage d)) = true) :
    (onChat dao w sock (some d)).fx.emits = [] ∧ delivered (onChat dao w sock (some d)) = [] := by
  have hem : (onChat dao w sock (some d)).fx.emits = [] := by
    unfold onChat
    rw [tryCatch_emits]
    cases hadd : dao.addMessage (newMessage d) with
    | throws err => simp [chatBody, hadd]
    | returns a =>
      cases a with
      | none => simp [chatBody, hadd]
      | some resp =>
        rw [hadd] at h
        simp [persistFailed] at h
        simp [chatBody, hadd, h]
  refine ⟨hem, ?_⟩
  unfold delivered
  rw [hem]
  rfl

/-- A run of `durability_before_delivery`: the append reports failure by value and nothing
is emitted. -/
theorem durability_before_delivery_witness :
    persistFailed (storeDown.addMessage (newMessage sampleData)) = true ∧
      (onChat storeDown oneRoom "a" (some sampleData)).fx.emits = [] ∧
      delivered (onChat storeDown oneRoom "a" (some sampleData)) = [] :=
  ⟨by decide, durability_before_delivery storeDown oneRoom "a" sampleData (by decide)⟩

/-- The same fact read from the emit side: an emit of a send exists only when the append
resolved to a response with a truthy `success`, and the append is the first store call. -/
theorem emit_only_after_persist (dao : MessageDAO) (w : World) (sock : SocketId)
    (data : Option ChatData) (e : Emit) (he : e ∈ (onChat dao w sock data).fx.emits) :
    ∃ d resp, data = some d ∧ dao.addMessage (newMessage d) = .returns (some resp) ∧
      truthy resp.success = true ∧
      (onChat dao w sock data).fx.calls.head? = some (.addMessage (newMessage d)) := by
  unfold onChat at he ⊢
  rw [tryCatch_emits] at he
  rw [tryCatch_calls]
  obtain ⟨d, resp, hd, hadd, hs, _, _, hcalls⟩ := chatBody_emit_inv dao w sock data e he
  exact ⟨d, resp, hd, hadd, hs, by rw [hcalls]; rfl⟩

/-- C2 as stated fails: `a`, whose session names `r2`, sends to `r1`; both store calls
succeed, yet the receivers are not the members of `r1`. -/
theorem fanout_target_counterexample :
    storeOk.addMessage (newMessage sampleData) =
        .returns (some { success := .bool true, id := .str "m1", error := .undefined }) ∧
      storeOk.getMessage (.str "m1") = .returns (some storedHi) ∧
      sampleData.chatId = .str "r1" ∧
      ¬ (∀ s, s ∈ delivered (onChat storeOk twoRooms "a" (some sampleData)) ↔
          s ∈ membersOf twoRooms (.str "r1")) := by
  refine ⟨rfl, rfl, rfl, ?_⟩
  intro h
  have hb : "b" ∈ delivered (onChat storeOk twoRooms "a" (some sampleData)) :=
    (h "b").2 (by decide)
  revert hb
  decide

/-- C2 (amended): when persist and re-fetch both succeed there is exactly one emit, its
target is the room keyed by the value of the sender's `socket.chatId` (the room id of its
most recent join, `undefined` if it never joined) and not the event's `data.chatId`, and
the receivers are exactly the current members of that room; the sender is among them
exactly when it is a member of it.  When `socket.chatId` equals `data.chatId` this is the
membership of the event's room. -/
theorem fanout_targets_session_room (dao : MessageDAO) (w : World) (sock : SocketId)
    (d : ChatData) (resp : AddResponse) (m : Option Message)
    (hadd : dao.addMessage (newMessage d) = .returns (some resp))
    (hs : truthy resp.success = true) (hget : dao.getMessage resp.id = .returns m) :
    (onChat dao w sock (some d)).fx.emits =
        [{ target := w.chatId sock, event := "chat", payload := m }] ∧
      delivered (onChat dao w sock (some d)) = membersOf w (w.chatId sock) ∧
      (w.chatId sock = d.chatId →
        delivered (onChat dao w sock (some d)) = membersOf w d.chatId) ∧
      (sock ∈ delivered (onChat dao w sock (some d)) ↔
        sock ∈ membersOf w (w.chatId sock)) := by
  have hdel := delivered_onChat_success dao w sock d resp m hadd hs hget
  refine ⟨onChat_success_emits dao w sock d resp m hadd hs hget, hdel, ?_, ?_⟩
  · intro hr
    rw [hdel, hr]
  · rw [hdel]

/-- A run of `fanout_targets_session_room`: `a`, whose session names `r2`, sends to `r1`;
the single emit targets `r2` and `a` alone receives it. -/
theorem fanout_targets_session_room_witness :
    (onChat storeOk twoRooms "a" (some sampleData)).fx.emits =
        [{ target := .str "r2", event := "chat", payload := some storedHi }] ∧
      delivered (onChat storeOk twoRooms "a" (some sampleData)) = ["a"] := by
  have h := fanout_targets_session_room storeOk twoRooms "a" sampleData
    { success := .bool true, id := .str "m1", error := .undefined } (some storedHi) rfl rfl rfl
  exact ⟨h.1, h.2.1.trans (by decide)⟩

/-- A sender that never joined has `socket.chatId` undefined: its send goes to the room
keyed `undefined`, here holding `b`, which sent `join` without a room id. -/
theorem send_without_session_reaches_undefined_room :
    (ioConnect (onJoin (ioConnect emptyWorld "b") "b" .undefined true).world "a").chatId "a" =
        .undefined ∧
      delivered (onChat storeOk
        (ioConnect (onJoin (ioConnect emptyWorld "b") "b" .undefined true).world "a") "a"
        (some sampleData)) = ["b"] := by
  decide

/-- A lookup that rejects halts the send: no emit. -/
theorem no_emit_when_refetch_throws (dao : MessageDAO) (w : World) (sock : SocketId)
    (d : ChatData) (resp : AddResponse) (err : String)
    (hadd : dao.addMessage (newMessage d) = .returns (some resp))
    (hget : dao.getMessage resp.id = .throws err) :
    (onChat dao w sock (some d)).fx.emits = [] := by
  unfold onChat
  rw [tryCatch_emits]
  by_cases hs : truthy resp.success = true
  · simp [chatBody, hadd, hs, hget]
  · simp [chatBody, hadd, hs]

/-- C6 at the failing input: the append succeeds, the lookup resolves to `null` (no
record for the returned id), and the handler still emits, with payload `null`, to both
members of the sender's room. -/
theorem refetch_no_record_still_emits :
    storeNoRecord.getMessage (.str "m1") = .returns none ∧
      (onChat storeNoRecord oneRoom "a" (some sampleData)).fx.emits =
        [{ target := .str "r1", event := "chat", payload := none }] ∧
      delivered (onChat storeNoRecord oneRoom "a" (some sampleData)) = ["a", "b"] := by
  decide

/-- C7 (canonical broadcast): every emit of a send carries exactly the value that
`MessageDAO.getMessage` resolved to for the `id` of the response of that run's
`addMessage` call; the store calls of the run are that append, made with type `"user"` and
the event's `chatId`, `sender`, `timestamp` and `content`, followed by that lookup. -/
theorem canonical_broadcast (dao : MessageDAO) (w : World) (sock : SocketId)
    (data : Option ChatData) (e : Emit) (he : e ∈ (onChat dao w sock data).fx.emits) :
    ∃ d resp, data = some d ∧
      dao.addMessage { chatId := d.chatId, type := .str "user", sender := d.sender,
                       timestamp := d.timestamp, content := d.content } =
        .returns (some resp) ∧
      dao.getMessage resp.id = .returns e.payload ∧
      e.event = "chat" ∧
      (onChat dao w sock data).fx.calls =
        [.addMessage { chatId := d.chatId, type := .str "user", sender := d.sender,
                       timestamp := d.timestamp, content := d.content },
         .getMessage resp.id] := by
  unfold onChat at he ⊢
  rw [tryCatch_emits] at he
  rw [tryCatch_calls]
  obtain ⟨d, resp, hd, hadd, _, hget, he2, hcalls⟩ := chatBody_emit_inv dao w sock data e he
  refine ⟨d, resp, hd, hadd, hget, ?_, hcalls⟩
  rw [he2]

/-- A run of `canonical_broadcast` on a successful send in `oneRoom`. -/
theorem canonical_broadcast_witness :
    ∃ d resp, some sampleData = some d ∧
      storeOk.addMessage { chatId := d.chatId, type := .str "user", sender := d.sender,
                           timestamp := d.timestamp, content := d.content } =
        .returns (some resp) ∧
      storeOk.getMessage resp.id = .returns (some storedHi) ∧
      "chat" = "chat" ∧
      (onChat storeOk oneRoom "a" (some sampleData)).fx.calls =
        [.addMessage { chatId := d.chatId, type := .str "user", sender := d.sender,
                       timestamp := d.timestamp, content := d.content },
         .getMessage resp.id] :=
  canonical_broadcast storeOk oneRoom "a" (some sampleData)
    { target := .str "r1", event := "chat", payload := some storedHi } (by decide)

/-- C9 (send does not touch membership): whatever the store does, a send leaves the whole
registry state as it was, so every room keeps its members and every connection its
session, and the handler completes normally. -/
theorem chat_preserves_registry (dao : MessageDAO) (w : World) (sock : SocketId)
    (data : Option ChatData) :
    (onChat dao w sock data).world = w ∧
      (∀ room, membersOf (onChat dao w sock data).world room = membersOf w room) ∧
      (∀ s, (onChat dao w sock data).world.chatId s = w.chatId s) ∧
      (onChat dao w sock data).completion = .normal := by
  have hw := onChat_world dao w sock data
  refine ⟨hw, ?_, ?_, ?_⟩
  · intro room; rw [hw]
  · intro s; rw [hw]
  · unfold onChat
    exact tryCatch_completion _ _

theorem mem_onJoin (w : World) (sock : SocketId) (chatId : Room) (callback : Bool)
    (room : Room) (s : SocketId) :
    s ∈ membersOf (onJoin w sock chatId callback).world room ↔
      s ∈ membersOf w room ∨ (room = chatId ∧ s = sock) := by
  rw [mem_membersOf, mem_membersOf, onJoin_world]
  simp only [mem_socketJoin, Prod.mk.injEq]

theorem mem_onLeave (w : World) (sock : SocketId) (chatId : Room) (callback : Bool)
    (room : Room) (s : SocketId) :
    s ∈ membersOf (onLeave w sock chatId callback).world room ↔
      s ∈ membersOf w room ∧ ¬ (room = chatId ∧ s = sock) := by
  rw [mem_membersOf, mem_membersOf, onLeave_world]
  simp only [mem_socketLeave, ne_eq, Prod.mk.injEq]

theorem onJoin_chatId (w : World) (sock : SocketId) (chatId : Room) (callback : Bool)
    (s : SocketId) :
    (onJoin w sock chatId callback).world.chatId s =
      if s = sock then chatId else w.chatId s := by
  rw [onJoin_world]

theorem onLeave_chatId (w : World) (sock : SocketId) (chatId : Room) (callback : Bool) :
    (onLeave w sock chatId callback).world.chatId = w.chatId := by
  rw [onLeave_world]
  rfl

theorem mem_ioConnect (w : World) (id : SocketId) (room : Room) (s : SocketId) :
    s ∈ membersOf (ioConnect w id) room ↔
      s ∈ membersOf w room ∨ (room = .str id ∧ s = id) := by
  rw [mem_membersOf, mem_membersOf]
  unfold ioConnect
  simp only [mem_socketJoin, Prod.mk.injEq]

theorem ioConnect_chatId (w : World) (id : SocketId) :
    (ioConnect w id).chatId id = .undefined := by
  unfold ioConnect
  rw [socketJoin_chatId]
  simp

/-- From any state, a run of `join`/`leave` events leaves the session at the most
recently joined room and the socket in exactly the rooms joined and not left since. -/
theorem runEvents_spec (sock : SocketId) (evs : List RoomEvent) (w : World) (room : Room) :
    (runEvents sock w evs).chatId sock = lastJoined (w.chatId sock) evs ∧
      (sock ∈ membersOf (runEvents sock w evs) room ↔
        joinedLast room (decide (sock ∈ membersOf w room)) evs = true) := by
  induction evs generalizing w with
  | nil => simp [runEvents, lastJoined, joinedLast]
  | cons e es ih =>
    have h := ih (handleEvent sock w e)
    unfold runEvents lastJoined joinedLast at h ⊢
    rw [List.foldl_cons, List.foldl_cons, List.foldl_cons]
    cases e with
    | join chatId callback =>
      have h1 : (handleEvent sock w (.join chatId callback)).chatId sock = chatId := by
        simp [handleEvent, onJoin_chatId]
      have h2 : decide (sock ∈ membersOf (handleEvent sock w (.join chatId callback)) room) =
          (if chatId = room then true else decide (sock ∈ membersOf w room)) := by
        simp only [handleEvent, mem_onJoin]
        by_cases hc : chatId = room
        · simp [hc]
        · have hc2 : ¬ room = chatId := fun x => hc x.symm
          simp [hc, hc2]
      rw [h1, h2] at h
      exact h
    | leave chatId callback =>
      have h1 : (handleEvent sock w (.leave chatId callback)).chatId sock = w.chatId sock := by
        simp [handleEvent, onLeave_chatId]
      have h2 : decide (sock ∈ membersOf (handleEvent sock w (.leave chatId callback)) room) =
          (if chatId = room then false else decide (sock ∈ membersOf w room)) := by
        simp only [handleEvent, mem_onLeave]
        by_cases hc : chatId = room
        · simp [hc]
        · have hc2 : ¬ room = chatId := fun x => hc x.symm
          simp [hc, hc2]
      rw [h1, h2] at h
      exact h

theorem foldl_disconnectStep_sublist (sock : SocketId) (rooms : List Room) (w : World) :
    (rooms.foldl (disconnectStep sock) w).members.Sublist w.members := by
  induction rooms generalizing w with
  | nil => exact List.Sublist.refl _
  | cons r rs ih =>
    rw [List.foldl_cons]
    refine (ih _).trans ?_
    unfold disconnectStep
    split
    · exact List.filter_sublist _
    · exact List.Sublist.refl _

theorem membersOf_onDisconnecting_sublist (w : World) (sock : SocketId) (room : Room) :
    (membersOf (onDisconnecting w sock).world room).Sublist (membersOf w room) := by
  unfold membersOf onDisconnecting
  rw [tryCatch_world]
  exact ((foldl_disconnectStep_sublist sock _ w).filter _).map _

theorem mem_membersOf_onDisconnecting (w : World) (sock : SocketId) (room : Room)
    (s : SocketId) :
    s ∈ membersOf (onDisconnecting w sock).world room ↔
      s ∈ membersOf w room ∧ ¬ (w.chatId sock = room ∧ s = sock) := by
  rw [mem_membersOf, mem_membersOf, mem_onDisconnecting]
  constructor
  · rintro ⟨hp, h⟩
    refine ⟨hp, ?_⟩
    rintro ⟨hc, hs⟩
    exact h (by rw [hc, hs])
  · rintro ⟨hp, h⟩
    refine ⟨hp, fun heq => ?_⟩
    simp only [Prod.mk.injEq] at heq
    exact h ⟨heq.1.symm, heq.2⟩

/-- C3 as stated fails: after `join r1` then `leave r1` on a fresh connection the session
still names `r1` although the room no longer holds the handle. -/
theorem single_room_counterexample :
    joinedThenLeft.chatId "a" = .str "r1" ∧ "a" ∉ membersOf joinedThenLeft (.str "r1") ∧
      ¬ ("a" ∈ membersOf joinedThenLeft (.str "r1") ↔
          joinedThenLeft.chatId "a" = .str "r1") := by
  decide

/-- C3 (amended): on a fresh connection, after every finite sequence of `join`/`leave`
events the session names at most one room, namely the room of the most recent `join`
(none, the value `undefined`, before the first `join`; a `leave` never clears it), and a
chat room holds the handle exactly when the most recent event naming that room is a
`join`. -/
theorem session_tracks_last_join (w0 : World) (sock : SocketId) (evs : List RoomEvent)
    (room : Room) (hnew : ∀ r, sock ∉ membersOf w0 r) (hroom : room ≠ .str sock) :
    (runEvents sock (ioConnect w0 sock) evs).chatId sock = lastJoined .undefined evs ∧
      (sock ∈ membersOf (runEvents sock (ioConnect w0 sock) evs) room ↔
        joinedLast room false evs = true) := by
  have h := runEvents_spec sock evs (ioConnect w0 sock) room
  have hm : decide (sock ∈ membersOf (ioConnect w0 sock) room) = false := by
    rw [decide_eq_false_iff_not, mem_ioConnect]
    rintro (h1 | ⟨h1, _⟩)
    · exact hnew room h1
    · exact hroom h1
  rw [ioConnect_chatId, hm] at h
  exact h

/-- A run of `session_tracks_last_join`: after `join r1`, `join r2`, `leave r2` the session
still names `r2` and the handle is still in `r1`. -/
theorem session_tracks_last_join_witness :
    (runEvents "a" (ioConnect emptyWorld "a")
        [.join (.str "r1") true, .join (.str "r2") true, .leave (.str "r2") true]).chatId "a" =
        .str "r2" ∧
      ("a" ∈ membersOf (runEvents "a" (ioConnect emptyWorld "a")
        [.join (.str "r1") true, .join (.str "r2") true, .leave (.str "r2") true])
        (.str "r1") ↔ true = true) :=
  session_tracks_last_join emptyWorld "a"
    [.join (.str "r1") true, .join (.str "r2") true, .leave (.str "r2") true]
    (.str "r1") (fun _ => List.not_mem_nil _) (by decide)

/-- C4 as stated fails: after `join r1` then `join r2` the handle is still a member of
`r1`. -/
theorem one_room_membership_counterexample :
    ¬ ("a" ∈ membersOf joinedTwice (.str "r2") ∧
        "a" ∉ membersOf joinedTwice (.str "r1")) := by
  decide

/-- C4 (amended): `join` only adds.  After `join(r)` then `join(r2)` the handle is in
`membersOf(r2)` and still in `membersOf(r)`, and only the session moved to `r2`; a handle
can therefore be a member of several chat rooms at once. -/
theorem join_keeps_earlier_rooms (w : World) (sock : SocketId) (r r2 : Room)
    (cb cb2 : Bool) :
    sock ∈ membersOf (onJoin (onJoin w sock r cb).world sock r2 cb2).world r2 ∧
      sock ∈ membersOf (onJoin (onJoin w sock r cb).world sock r2 cb2).world r ∧
      (onJoin (onJoin w sock r cb).world sock r2 cb2).world.chatId sock = r2 := by
  refine ⟨?_, ?_, ?_⟩
  · rw [mem_onJoin]
    exact Or.inr ⟨rfl, rfl⟩
  · rw [mem_onJoin, mem_onJoin]
    exact Or.inl (Or.inr ⟨rfl, rfl⟩)
  · rw [onJoin_chatId]
    simp

/-- C5 (disconnect cleanup): from any registry state, after `join(R)` and then the
`disconnecting` event of the same handle, `membersOf(R)` does not contain the handle, and
every other handle is in exactly the rooms it was in, both before the join and before the
disconnect. -/
theorem disconnect_cleanup (w : World) (R : Room) (h : SocketId) (cb : Bool) :
    h ∉ membersOf (onDisconnecting (onJoin w h R cb).world h).world R ∧
      (∀ room s, s ≠ h →
        (s ∈ membersOf (onDisconnecting (onJoin w h R cb).world h).world room ↔
          s ∈ membersOf w room)) ∧
      (∀ room s, s ≠ h →
        (s ∈ membersOf (onDisconnecting (onJoin w h R cb).world h).world room ↔
          s ∈ membersOf (onJoin w h R cb).world room)) := by
  refine ⟨?_, ?_, ?_⟩
  · rw [mem_membersOf_onDisconnecting]
    rintro ⟨_, hn⟩
    apply hn
    rw [onJoin_chatId]
    simp
  · intro room s hs
    rw [mem_membersOf_onDisconnecting, mem_onJoin]
    constructor
    · rintro ⟨h1 | ⟨_, h1⟩, _⟩
      · exact h1
      · exact absurd h1 hs
    · intro h1
      exact ⟨Or.inl h1, fun h2 => hs h2.2⟩
  · intro room s hs
    rw [mem_membersOf_onDisconnecting]
    constructor
    · exact fun h1 => h1.1
    · intro h1
      exact ⟨h1, fun h2 => hs h2.2⟩

/-- A run of `disconnect_cleanup`: `b` joins `r1` and disconnects; `a` stays in `r1`. -/
theorem disconnect_cleanup_witness :
    "b" ∉ membersOf (onDisconnecting (onJoin oneRoom "b" (.str "r1") true).world "b").world
        (.str "r1") ∧
      ("a" ∈ membersOf (onDisconnecting (onJoin oneRoom "b" (.str "r1") true).world "b").world
          (.str "r1") ↔
        "a" ∈ membersOf oneRoom (.str "r1")) :=
  ⟨(disconnect_cleanup oneRoom (.str "r1") "b" true).1,
    (disconnect_cleanup oneRoom (.str "r1") "b" true).2.1 (.str "r1") "a" (by decide)⟩

/-- C8 (idempotent join/leave): handling `join(R)` twice for a handle gives the same
registry and session state as handling it once; `leave(R)` for a handle that is not in
`membersOf(R)` changes nothing in the state, completes normally and, on the supplied
acknowledgement callback, still answers with status `"ok"` and logs no failure. -/
theorem join_leave_idempotent (w : World) (R : Room) (h : SocketId) (cb1 cb2 cb3 : Bool) :
    (onJoin (onJoin w h R cb1).world h R cb2).world = (onJoin w h R cb1).world ∧
      (h ∉ membersOf w R →
        (onLeave w h R cb3).world = w ∧
        (onLeave w h R cb3).completion = .normal ∧
        (onLeave w h R true).fx.acks = [{ socket := h, status := "ok" }] ∧
        (onLeave w h R true).fx.errors = []) := by
  constructor
  · have hin : (R, h) ∈ (onJoin w h R cb1).world.members := by
      rw [← mem_membersOf, mem_onJoin]
      exact Or.inr ⟨rfl, rfl⟩
    rw [onJoin_world (onJoin w h R cb1).world]
    have hj : socketJoin (onJoin w h R cb1).world h R = (onJoin w h R cb1).world := by
      unfold socketJoin
      rw [if_pos hin]
    rw [hj]
    have hc : (fun s => if s = h then R else (onJoin w h R cb1).world.chatId s) =
        (onJoin w h R cb1).world.chatId := by
      funext s
      rw [onJoin_chatId]
      by_cases hs : s = h <;> simp [hs]
    rw [hc]
  · intro hn
    refine ⟨?_, ?_, ?_, ?_⟩
    · rw [onLeave_world]
      unfold socketLeave
      have hf : w.members.filter (fun p => decide (p ≠ (R, h))) = w.members := by
        rw [List.filter_eq_self]
        intro p hp
        simp only [ne_eq, decide_not, Bool.not_eq_eq_eq_not, Bool.not_true,
          decide_eq_false_iff_not]
        rintro rfl
        exact hn ((mem_membersOf w R h).2 hp)
      rw [hf]
    · unfold onLeave
      exact tryCatch_completion _ _
    · rfl
    · rfl

/-- A run of `join_leave_idempotent`: `a` joins `r1` twice, and leaves `r9`, which it never
joined. -/
theorem join_leave_idempotent_witness :
    (onJoin (onJoin oneRoom "a" (.str "r1") true).world "a" (.str "r1") true).world =
        (onJoin oneRoom "a" (.str "r1") true).world ∧
      (onLeave oneRoom "a" (.str "r9") true).world = oneRoom ∧
      (onLeave oneRoom "a" (.str "r9") true).completion = .normal ∧
      (onLeave oneRoom "a" (.str "r9") true).fx.acks = [{ socket := "a", status := "ok" }] ∧
      (onLeave oneRoom "a" (.str "r9") true).fx.errors = [] :=
  ⟨(join_leave_idempotent oneRoom (.str "r1") "a" true true true).1,
    (join_leave_idempotent oneRoom (.str "r9") "a" true true true).2 (by decide)⟩

/-- C10 (fan-out completeness): in a state where the members of room `R` are exactly the
distinct handles `A`, `B`, `C`, whose sessions name `R`, a send from `A` whose persist and
re-fetch succeed makes exactly one emit, targeted at `R`, and the deliveries are `A`, `B`
and `C`, once each and nobody else (for any event data, so also for one addressed to `R`).
After the `disconnecting` event of `B`, `membersOf(R)` no longer contains `B`, and a second
send from `A` is delivered to `A` and `C` only, once each. -/
theorem fanout_completeness (dao : MessageDAO) (w : World) (R : Room) (A B C : SocketId)
    (d1 d2 : ChatData) (resp1 resp2 : AddResponse) (m1 m2 : Option Message)
    (hAB : A ≠ B) (hAC : A ≠ C) (hBC : B ≠ C)
    (hmem : (membersOf w R).Perm [A, B, C])
    (hA : w.chatId A = R) (hB : w.chatId B = R)
    (hadd1 : dao.addMessage (newMessage d1) = .returns (some resp1))
    (hs1 : truthy resp1.success = true) (hget1 : dao.getMessage resp1.id = .returns m1)
    (hadd2 : dao.addMessage (newMessage d2) = .returns (some resp2))
    (hs2 : truthy resp2.success = true) (hget2 : dao.getMessage resp2.id = .returns m2) :
    (onChat dao w A (some d1)).fx.emits =
        [{ target := R, event := "chat", payload := m1 }] ∧
      (delivered (onChat dao w A (some d1))).Perm [A, B, C] ∧
      B ∉ membersOf (onDisconnecting (onChat dao w A (some d1)).world B).world R ∧
      (membersOf (onDisconnecting (onChat dao w A (some d1)).world B).world R).Perm [A, C] ∧
      (onChat dao (onDisconnecting (onChat dao w A (some d1)).world B).world A
          (some d2)).fx.emits =
        [{ target := R, event := "chat", payload := m2 }] ∧
      (delivered (onChat dao (onDisconnecting (onChat dao w A (some d1)).world B).world A
          (some d2))).Perm [A, C] := by
  have hw1 : (onChat dao w A (some d1)).world = w := onChat_world dao w A (some d1)
  rw [hw1]
  have hnd : (membersOf w R).Nodup := by
    rw [hmem.nodup_iff]
    simp [hAB, hAC, hBC]
  have hnotB : B ∉ membersOf (onDisconnecting w B).world R := by
    rw [mem_membersOf_onDisconnecting]
    rintro ⟨_, hn⟩
    exact hn ⟨hB, rfl⟩
  have hperm2 : (membersOf (onDisconnecting w B).world R).Perm [A, C] := by
    have hnd2 : (membersOf (onDisconnecting w B).world R).Nodup :=
      hnd.sublist (membersOf_onDisconnecting_sublist w B R)
    have hndAC : [A, C].Nodup := by simp [hAC]
    rw [List.perm_ext_iff_of_nodup hnd2 hndAC]
    intro s
    rw [mem_membersOf_onDisconnecting, hmem.mem_iff]
    simp only [List.mem_cons, List.mem_singleton, List.not_mem_nil, or_false]
    constructor
    · rintro ⟨h1 | h1 | h1, hn⟩
      · exact Or.inl h1
      · exact absurd ⟨hB, h1⟩ hn
      · exact Or.inr h1
    · rintro (h1 | h1)
      · exact ⟨Or.inl h1, fun hn => hAB (h1.symm.trans hn.2)⟩
      · exact ⟨Or.inr (Or.inr h1), fun hn => hBC (hn.2.symm.trans h1)⟩
  have hA2 : (onDisconnecting w B).world.chatId A = R := by
    rw [onDisconnecting_chatId]
    exact hA
  refine ⟨?_, ?_, hnotB, hperm2, ?_, ?_⟩
  · rw [onChat_success_emits dao w A d1 resp1 m1 hadd1 hs1 hget1, hA]
  · rw [delivered_onChat_success dao w A d1 resp1 m1 hadd1 hs1 hget1, hA]
    exact hmem
  · rw [onChat_success_emits dao _ A d2 resp2 m2 hadd2 hs2 hget2, hA2]
  · rw [delivered_onChat_success dao _ A d2 resp2 m2 hadd2 hs2 hget2, hA2]
    exact hperm2

/-- A run of `fanout_completeness` on three connections that each joined `r1`. -/
theorem fanout_completeness_witness :
    (onChat storeOk threeInRoom "a" (some sampleData)).fx.emits =
        [{ target := .str "r1", event := "chat", payload := some storedHi }] ∧
      (delivered (onChat storeOk threeInRoom "a" (some sampleData))).Perm ["a", "b", "c"] ∧
      "b" ∉ membersOf
        (onDisconnecting (onChat storeOk threeInRoom "a" (some sampleData)).world "b").world
        (.str "r1") ∧
      (membersOf
        (onDisconnecting (onChat storeOk threeInRoom "a" (some sampleData)).world "b").world
        (.str "r1")).Perm ["a", "c"] ∧
      (onChat storeOk
          (onDisconnecting (onChat storeOk threeInRoom "a" (some sampleData)).world "b").world
          "a" (some sampleData)).fx.emits =
        [{ target := .str "r1", event := "chat", payload := some storedHi }] ∧
      (delivered (onChat storeOk
          (onDisconnecting (onChat storeOk threeInRoom "a" (some sampleData)).world "b").world
          "a" (some sampleData))).Perm ["a", "c"] :=
  fanout_completeness storeOk threeInRoom (.str "r1") "a" "b" "c" sampleData sampleData
    { success := .bool true, id := .str "m1", error := .undefined }
    { success := .bool true, id := .str "m1", error := .undefined }
    (some storedHi) (some storedHi)
    (by decide) (by decide) (by decide) (by decide) (by decide) (by decide)
    rfl rfl rfl rfl rfl rfl

theorem socketJoin_nodup (w : World) (id : SocketId) (room : Room)
    (h : w.members.Nodup) : (socketJoin w id room).members.Nodup := by
  unfold socketJoin
  split
  · exact h
  · rename_i hn
    simp only
    rw [List.nodup_append]
    refine ⟨h, List.nodup_singleton _, ?_⟩
    intro p hp hq
    rw [List.mem_singleton] at hq
    subst hq
    exact hn hp

theorem onJoin_nodup (w : World) (sock : SocketId) (chatId : Room) (callback : Bool)
    (h : w.members.Nodup) : (onJoin w sock chatId callback).world.members.Nodup := by
  rw [onJoin_world]
  exact socketJoin_nodup w sock chatId h

theorem ioConnect_nodup (w : World) (id : SocketId) (h : w.members.Nodup) :
    (ioConnect w id).members.Nodup := by
  unfold ioConnect
  exact socketJoin_nodup _ id (.str id) h

theorem membersOf_nodup (w : World) (room : Room) (h : w.members.Nodup) :
    (membersOf w room).Nodup := by
  unfold membersOf
  refine List.Nodup.map_on ?_ (h.filter _)
  rintro ⟨r1, s1⟩ h1 ⟨r2, s2⟩ h2 heq
  simp only [List.mem_filter, decide_eq_true_eq] at h1 h2
  simp only at heq
  rw [h1.2, h2.2, heq]

/-- The state reached by three connections that each joined `R`: the members of `R` are
exactly the three handles and each session names `R`. -/
theorem threeJoined_state (R : Room) (A B C : SocketId)
    (hAB : A ≠ B) (hAC : A ≠ C) (hBC : B ≠ C) :
    (membersOf (threeJoined R A B C) R).Perm [A, B, C] ∧
      (threeJoined R A B C).chatId A = R ∧
      (threeJoined R A B C).chatId B = R ∧
      (threeJoined R A B C).chatId C = R := by
  refine ⟨?_, ?_, ?_, ?_⟩
  · have hnd : (membersOf (threeJoined R A B C) R).Nodup := by
      apply membersOf_nodup
      unfold threeJoined
      repeat first
        | apply onJoin_nodup
        | apply ioConnect_nodup
      exact List.nodup_nil
    have hnd3 : [A, B, C].Nodup := by simp [hAB, hAC, hBC]
    rw [List.perm_ext_iff_of_nodup hnd hnd3]
    intro s
    unfold threeJoined
    simp only [mem_onJoin, mem_ioConnect, List.mem_cons, List.mem_singleton,
      List.not_mem_nil, or_false, true_and]
    have h0 : s ∉ membersOf emptyWorld R := List.not_mem_nil _
    constructor
    · rintro ((((((h1 | h1) | h1) | h1) | h1) | h1) | h1)
      · exact absurd h1 h0
      · exact Or.inl h1.2
      · exact Or.inr (Or.inl h1.2)
      · exact Or.inr (Or.inr h1.2)
      · exact Or.inl h1
      · exact Or.inr (Or.inl h1)
      · exact Or.inr (Or.inr h1)
    · rintro (h1 | h1 | h1)
      · exact Or.inl (Or.inl (Or.inr h1))
      · exact Or.inl (Or.inr h1)
      · exact Or.inr h1
  · unfold threeJoined
    simp [onJoin_chatId, hAB, hAC]
  · unfold threeJoined
    simp [onJoin_chatId, hBC]
  · unfold threeJoined
    simp [onJoin_chatId]

end ChatRelay
